import Mathlib

/-!
Verification of the OpenAPI documentation library
(`packages/openapi-ui`): a shallow embedding, in Lean, of the
specification-normalization pipeline (`src/parsing/parseOpenApi.ts`), the
loader hook (`useApiLoader`), the search hook (`useSearch`), the request
execution hook (`useExecuteOperation`) and the code-snippet generator
(`useCodeSnippet`), together with theorems about the embedded functions.

Conventions of the embedding:
* JavaScript runtime values are modelled by the `Json` inductive; `undefined`
  is modelled by `Option.none` at member-lookup sites (JS object field access
  on a missing key yields `undefined`).
* JavaScript truthiness is `jsTruthy`.
* Fallible code (`throw`) is modelled with `Except String`.
* Unbounded recursion (schema normalization can diverge on cyclic schemas,
  a documented non-goal of the library) is modelled with an explicit fuel
  parameter; claims about normalization are stated under a `= .ok _`
  hypothesis, which subsumes the fuel bound.
* External platform primitives that the repository only calls
  (`JSON.parse`, `js-yaml`'s `load`, WHATWG `URL`, `btoa`,
  `JSON.stringify`, `encodeURIComponent`) are taken as parameters, so every
  theorem holds for all of their implementations.
* Strings are manipulated through their `List Char` data to keep every
  definition kernel-computable.
-/

/-- JavaScript/JSON values.  Numbers are modelled as integers: no claim in
this development depends on non-integral numeric values, only on numeric
truthiness (`0` is falsy). -/
inductive Json where
  | null
  | bool (b : Bool)
  | num (n : Int)
  | str (s : String)
  | arr (elems : List Json)
  | obj (fields : List (String × Json))

/-- JavaScript truthiness of a value. -/
def jsTruthy : Json → Bool
  | .null => false
  | .bool b => b
  | .num n => !(n = 0)
  | .str s => !(s = "")
  | .arr _ => true
  | .obj _ => true

/-- `true` exactly on `null`. -/
def Json.isNull : Json → Bool
  | .null => true
  | _ => false

/-- First-match association lookup.  JS object literals in this development
have pairwise distinct keys, as runtime JS objects do. -/
def lookupField : List (String × Json) → String → Option Json
  | [], _ => none
  | (k, v) :: rest, key => if k = key then some v else lookupField rest key

/-- Parse a canonical decimal numeral (as JS array indexing requires:
`"0"`, `"12"`, but not `"01"` or `""`). -/
def canonicalIndex (s : List Char) : Option Nat :=
  if s = [] then none
  else if s.all Char.isDigit then
    if s.head? = some '0' ∧ s ≠ ['0'] then none
    else some (s.foldl (fun n c => n * 10 + (c.toNat - 48)) 0)
  else none

/-- JS member access `value[key]` returning `undefined` (`none`) when the
member does not exist; never throws (the throwing case, member access on
`null`, is handled by `jsLookup`). -/
def jsMemberOpt : Json → String → Option Json
  | .obj fields, key => lookupField fields key
  | .arr elems, key =>
    if key = "length" then some (.num elems.length)
    else match canonicalIndex key.data with
      | some i => elems.get? i
      | none => none
  | .str s, key =>
    if key = "length" then some (.num s.data.length)
    else match canonicalIndex key.data with
      | some i => (s.data.get? i).map (fun c => .str (String.mk [c]))
      | none => none
  | _, _ => none

/-- JS member access including the `TypeError` thrown when reading a
property of `null`. -/
def jsLookup (v : Json) (key : String) : Except String (Option Json) :=
  match v with
  | .null => .error ("TypeError: Cannot read properties of null (reading " ++ key ++ ")")
  | w => .ok (jsMemberOpt w key)

/-- Convenience: member access on values statically known to be objects
(mirrors typed TS field access `x.field`). -/
def jsGet (v : Json) (key : String) : Option Json := jsMemberOpt v key

/-- Typed extraction of an optional string field (TS type `string |
undefined`); on a well-typed document the member is a string whenever
present. -/
def asStrOpt : Option Json → Option String
  | some (.str s) => some s
  | _ => none

/-- Typed extraction of an optional string-array field (TS `string[] |
undefined`). -/
def asStrListOpt : Option Json → Option (List String)
  | some (.arr xs) => some (xs.filterMap (fun j => match j with
      | .str s => some s
      | _ => none))
  | _ => none

/-- The JS idiom `x.field || false` collapsed to a boolean. -/
def boolOrFalse : Option Json → Bool
  | some v => jsTruthy v
  | none => false

/-! ### List-of-characters string primitives

Kernel-computable replacements for the JS string methods the source uses
(`includes`, `replace` with a string pattern, `split`, `toLowerCase`,
`toUpperCase`). -/

/-- `listStartsWith s p` : does `s` start with `p`? -/
def listStartsWith : List Char → List Char → Bool
  | _, [] => true
  | [], _ :: _ => false
  | a :: as, b :: bs => a = b && listStartsWith as bs

/-- `listContains q s` : does `q` occur contiguously inside `s`?
(JS `s.includes(q)`.) -/
def listContains (q : List Char) : List Char → Bool
  | [] => listStartsWith [] q
  | c :: rest => listStartsWith (c :: rest) q || listContains q rest

/-- JS `s.replace(pat, rep)` with a string pattern: replaces only the
first occurrence; `"".replace("", r) = r`. -/
def replaceFirstL (pat rep : List Char) : List Char → List Char
  | [] => if listStartsWith [] pat then rep else []
  | c :: rest =>
    if listStartsWith (c :: rest) pat then rep ++ (c :: rest).drop pat.length
    else c :: replaceFirstL pat rep rest

/-- JS `s.split("/")` (single-character separator); `"".split("/") = [""]`. -/
def splitSlashAux (cur : List Char) : List Char → List (List Char)
  | [] => [cur.reverse]
  | c :: rest =>
    if c = '/' then cur.reverse :: splitSlashAux [] rest
    else splitSlashAux (c :: cur) rest

def splitSlash (s : List Char) : List (List Char) := splitSlashAux [] s

/-- Substring containment as a proposition. -/
def strContains (s t : String) : Prop :=
  ∃ a b : List Char, s.data = a ++ t.data ++ b

/-- Boolean substring containment (JS `s.includes(t)`). -/
def strContainsB (s t : String) : Bool := listContains t.data s.data

theorem strData_append (a b : String) : (a ++ b).data = a.data ++ b.data := rfl

theorem listStartsWith_append_self (p rest : List Char) :
    listStartsWith (p ++ rest) p = true := by
  induction p with
  | nil => cases rest <;> rfl
  | cons c cs ih => simp [listStartsWith, ih]

theorem listStartsWith_iff (s p : List Char) :
    listStartsWith s p = true ↔ ∃ rest, s = p ++ rest := by
  induction p generalizing s with
  | nil => simp [listStartsWith]
  | cons c cs ih =>
    cases s with
    | nil =>
      simp [listStartsWith]
    | cons d ds =>
      simp only [listStartsWith, Bool.and_eq_true, decide_eq_true_eq, ih]
      constructor
      · rintro ⟨rfl, rest, rfl⟩
        exact ⟨rest, rfl⟩
      · rintro ⟨rest, h⟩
        cases h
        exact ⟨rfl, rest, rfl⟩

theorem listContains_iff (q s : List Char) :
    listContains q s = true ↔ ∃ a b, s = a ++ q ++ b := by
  induction s with
  | nil =>
    simp only [listContains, listStartsWith_iff]
    constructor
    · rintro ⟨rest, h⟩
      exact ⟨[], rest, by simpa using h⟩
    · rintro ⟨a, b, h⟩
      refine ⟨b, ?_⟩
      have h2 := h.symm
      rcases List.append_eq_nil.mp (List.append_eq_nil.mp h2).1 with ⟨ha, hq⟩
      simp [ha, hq, (List.append_eq_nil.mp h2).2]
  | cons c rest ih =>
    simp only [listContains, Bool.or_eq_true, listStartsWith_iff, ih]
    constructor
    · rintro (⟨r, hr⟩ | ⟨a, b, h⟩)
      · exact ⟨[], r, by simpa using hr⟩
      · exact ⟨c :: a, b, by simp [h]⟩
    · rintro ⟨a, b, h⟩
      cases a with
      | nil =>
        exact Or.inl ⟨b, by simpa using h⟩
      | cons a0 as =>
        right
        refine ⟨as, b, ?_⟩
        simp only [List.cons_append] at h
        injection h with h1 h2

theorem strContains_iff_strContainsB (s t : String) :
    strContains s t ↔ strContainsB s t = true := by
  unfold strContains strContainsB
  rw [listContains_iff]

/-! ### Reference resolver (`resolveReference`, parseOpenApi.ts)

```js
function resolveReference(item, spec) {
  if (typeof item === "object" && item !== null && "$ref" in item) {
    const ref = item.$ref;
    const path = ref.replace("#/", "").split("/");
    let current = spec;
    for (const segment of path) {
      current = current[segment];
      if (!current) throw new Error(`Unable to resolve reference: ${ref}`);
    }
    return current;
  }
  return item;
}
```
The TS signature types `item` as `T | Reference`, so a present `$ref`
member is a string; `getRef` reads it under that typing. -/

/-- The `$ref` string of a reference node, if the node is an object with a
string `$ref` member. -/
def getRef : Json → Option String
  | .obj fields =>
    match lookupField fields "$ref" with
    | some (.str s) => some s
    | _ => none
  | _ => none

/-- `ref.replace("#/", "").split("/")`: strip the first occurrence of
`#/`, then split on `/`. -/
def refSegments (ref : String) : List String :=
  (splitSlash (replaceFirstL ("#/".data) [] ref.data)).map String.mk

def unresolvedMsg (ref : String) : String :=
  "Unable to resolve reference: " ++ ref

/-- The resolver's descent loop: look the segment up, then apply the
`if (!current) throw` truthiness check. -/
def walkPath (ref : String) : Json → List String → Except String Json
  | cur, [] => .ok cur
  | cur, seg :: rest =>
    match jsLookup cur seg with
    | .error e => .error e
    | .ok none => .error (unresolvedMsg ref)
    | .ok (some v) =>
      if jsTruthy v then walkPath ref v rest else .error (unresolvedMsg ref)

def resolveReference (item spec : Json) : Except String Json :=
  match getRef item with
  | some ref => walkPath ref spec (refSegments ref)
  | none => .ok item

/-- Pure presence descent: follows the segments by member lookup only (no
truthiness check).  `none` exactly when some path segment is absent from
the document. -/
def chainAll : Json → List String → Option Json
  | cur, [] => some cur
  | cur, seg :: rest =>
    match jsMemberOpt cur seg with
    | none => none
    | some v => chainAll v rest

theorem jsTruthy_not_null {v : Json} (h : jsTruthy v = true) : v.isNull = false := by
  cases v <;> simp_all [jsTruthy, Json.isNull]

theorem unresolvedMsg_contains (ref : String) : strContains (unresolvedMsg ref) ref :=
  ⟨("Unable to resolve reference: ").data, [], by
    simp [unresolvedMsg, strData_append]⟩

theorem walkPath_error_contains (ref : String) :
    ∀ (segs : List String) (cur : Json) (msg : String), cur.isNull = false →
      walkPath ref cur segs = .error msg → strContains msg ref := by
  intro segs
  induction segs with
  | nil => intro cur msg _ h; simp [walkPath] at h
  | cons seg rest ih =>
    intro cur msg hnn h
    unfold walkPath at h
    unfold jsLookup at h
    cases cur with
    | null => simp [Json.isNull] at hnn
    | bool b =>
      simp only at h
      cases hm : jsMemberOpt (.bool b) seg with
      | none => rw [hm] at h; simp at h; rw [← h]; exact unresolvedMsg_contains ref
      | some v =>
        rw [hm] at h; simp at h
        by_cases ht : jsTruthy v = true
        · rw [if_pos ht] at h; exact ih v msg (jsTruthy_not_null ht) h
        · rw [if_neg ht] at h; simp at h; rw [← h]; exact unresolvedMsg_contains ref
    | num n =>
      simp only at h
      cases hm : jsMemberOpt (.num n) seg with
      | none => rw [hm] at h; simp at h; rw [← h]; exact unresolvedMsg_contains ref
      | some v =>
        rw [hm] at h; simp at h
        by_cases ht : jsTruthy v = true
        · rw [if_pos ht] at h; exact ih v msg (jsTruthy_not_null ht) h
        · rw [if_neg ht] at h; simp at h; rw [← h]; exact unresolvedMsg_contains ref
    | str s =>
      simp only at h
      cases hm : jsMemberOpt (.str s) seg with
      | none => rw [hm] at h; simp at h; rw [← h]; exact unresolvedMsg_contains ref
      | some v =>
        rw [hm] at h; simp at h
        by_cases ht : jsTruthy v = true
        · rw [if_pos ht] at h; exact ih v msg (jsTruthy_not_null ht) h
        · rw [if_neg ht] at h; simp at h; rw [← h]; exact unresolvedMsg_contains ref
    | arr xs =>
      simp only at h
      cases hm : jsMemberOpt (.arr xs) seg with
      | none => rw [hm] at h; simp at h; rw [← h]; exact unresolvedMsg_contains ref
      | some v =>
        rw [hm] at h; simp at h
        by_cases ht : jsTruthy v = true
        · rw [if_pos ht] at h; exact ih v msg (jsTruthy_not_null ht) h
        · rw [if_neg ht] at h; simp at h; rw [← h]; exact unresolvedMsg_contains ref
    | obj fs =>
      simp only at h
      cases hm : jsMemberOpt (.obj fs) seg with
      | none => rw [hm] at h; simp at h; rw [← h]; exact unresolvedMsg_contains ref
      | some v =>
        rw [hm] at h; simp at h
        by_cases ht : jsTruthy v = true
        · rw [if_pos ht] at h; exact ih v msg (jsTruthy_not_null ht) h
        · rw [if_neg ht] at h; simp at h; rw [← h]; exact unresolvedMsg_contains ref

theorem walkPath_err_of_chain_none (ref : String) :
    ∀ (segs : List String) (cur : Json), cur.isNull = false →
      (chainAll cur segs).isNone = true →
      ∃ msg, walkPath ref cur segs = .error msg := by
  intro segs
  induction segs with
  | nil => intro cur _ hc; simp [chainAll] at hc
  | cons seg rest ih =>
    intro cur hnn hc
    unfold chainAll at hc
    unfold walkPath jsLookup
    cases cur with
    | null => simp [Json.isNull] at hnn
    | bool b =>
      cases hm : jsMemberOpt (.bool b) seg with
      | none => exact ⟨unresolvedMsg ref, by simp [hm]⟩
      | some v =>
        rw [hm] at hc
        by_cases ht : jsTruthy v = true
        · obtain ⟨msg, hmsg⟩ := ih v (jsTruthy_not_null ht) hc
          exact ⟨msg, by simp [hm, ht, hmsg]⟩
        · exact ⟨unresolvedMsg ref, by simp [hm, ht]⟩
    | num n =>
      cases hm : jsMemberOpt (.num n) seg with
      | none => exact ⟨unresolvedMsg ref, by simp [hm]⟩
      | some v =>
        rw [hm] at hc
        by_cases ht : jsTruthy v = true
        · obtain ⟨msg, hmsg⟩ := ih v (jsTruthy_not_null ht) hc
          exact ⟨msg, by simp [hm, ht, hmsg]⟩
        · exact ⟨unresolvedMsg ref, by simp [hm, ht]⟩
    | str s =>
      cases hm : jsMemberOpt (.str s) seg with
      | none => exact ⟨unresolvedMsg ref, by simp [hm]⟩
      | some v =>
        rw [hm] at hc
        by_cases ht : jsTruthy v = true
        · obtain ⟨msg, hmsg⟩ := ih v (jsTruthy_not_null ht) hc
          exact ⟨msg, by simp [hm, ht, hmsg]⟩
        · exact ⟨unresolvedMsg ref, by simp [hm, ht]⟩
    | arr xs =>
      cases hm : jsMemberOpt (.arr xs) seg with
      | none => exact ⟨unresolvedMsg ref, by simp [hm]⟩
      | some v =>
        rw [hm] at hc
        by_cases ht : jsTruthy v = true
        · obtain ⟨msg, hmsg⟩ := ih v (jsTruthy_not_null ht) hc
          exact ⟨msg, by simp [hm, ht, hmsg]⟩
        · exact ⟨unresolvedMsg ref, by simp [hm, ht]⟩
    | obj fs =>
      cases hm : jsMemberOpt (.obj fs) seg with
      | none => exact ⟨unresolvedMsg ref, by simp [hm]⟩
      | some v =>
        rw [hm] at hc
        by_cases ht : jsTruthy v = true
        · obtain ⟨msg, hmsg⟩ := ih v (jsTruthy_not_null ht) hc
          exact ⟨msg, by simp [hm, ht, hmsg]⟩
        · exact ⟨unresolvedMsg ref, by simp [hm, ht]⟩

/-- Claim C3: `resolveReference` is the identity on every node that is not
an object carrying a `$ref` string; and on a `$ref` node resolved against a
non-null root document it either fully resolves or throws — when any path
segment is absent the result is an error, and every error message contains
the literal ref string (no partial resolution is ever returned). -/
theorem c3_theorem :
    (∀ item spec, getRef item = none → resolveReference item spec = .ok item) ∧
    (∀ item spec ref, getRef item = some ref → spec.isNull = false →
      ((chainAll spec (refSegments ref)).isNone = true →
        ∃ msg, resolveReference item spec = .error msg ∧ strContains msg ref) ∧
      (∀ msg, resolveReference item spec = .error msg → strContains msg ref)) := by
  constructor
  · intro item spec h
    simp [resolveReference, h]
  · intro item spec ref h hnn
    constructor
    · intro hc
      obtain ⟨msg, hmsg⟩ := walkPath_err_of_chain_none ref (refSegments ref) spec hnn hc
      refine ⟨msg, ?_, walkPath_error_contains ref (refSegments ref) spec msg hnn hmsg⟩
      simp [resolveReference, h, hmsg]
    · intro msg hmsg
      simp only [resolveReference, h] at hmsg
      exact walkPath_error_contains ref (refSegments ref) spec msg hnn hmsg

/-- Concrete reference node and root document used by the C3 witness: the
pointer `#/components/schemas/Missing` has no `Missing` segment. -/
def c3SampleSpec : Json :=
  .obj [("components", .obj [("schemas", .obj [("User", .obj [("type", .str "object")])])])]

def c3SampleItem : Json := .obj [("$ref", .str "#/components/schemas/Missing")]

theorem c3_witness :
    (getRef c3SampleItem = some "#/components/schemas/Missing") ∧
    (c3SampleSpec.isNull = false) ∧
    ((chainAll c3SampleSpec (refSegments "#/components/schemas/Missing")).isNone = true) ∧
    ((getRef (Json.str "plain") = none) ∧
      resolveReference (Json.str "plain") c3SampleSpec = .ok (Json.str "plain")) ∧
    (∃ msg, resolveReference c3SampleItem c3SampleSpec = .error msg ∧
      strContains msg "#/components/schemas/Missing") := by
  refine ⟨rfl, rfl, rfl, ⟨rfl, ?_⟩, ?_⟩
  · exact c3_theorem.1 (Json.str "plain") c3SampleSpec rfl
  · exact (c3_theorem.2 c3SampleItem c3SampleSpec "#/components/schemas/Missing" rfl rfl).1 rfl

/-- Root document for C9: every segment of
`#/components/schemas/Flag` is present, but the final target value is the
falsy boolean `false`. -/
def c9SampleSpec : Json :=
  .obj [("components", .obj [("schemas", .obj [("Flag", .bool false)])])]

def c9SampleItem : Json := .obj [("$ref", .str "#/components/schemas/Flag")]

/-- Extracts the error message of an `Except` result. -/
def errMsg : Except String Json → Option String
  | .error m => some m
  | .ok _ => none

/-- Claim C9: there is a `$ref` pointer all of whose segments are present in
the root document on which `resolveReference` still throws the
"Unable to resolve reference" error — the `if (!current)` truthiness check
rejects present-but-falsy values (here `false`). -/
theorem c9_theorem :
    (chainAll c9SampleSpec (refSegments "#/components/schemas/Flag")).isSome = true ∧
    chainAll c9SampleSpec (refSegments "#/components/schemas/Flag") = some (.bool false) ∧
    errMsg (resolveReference c9SampleItem c9SampleSpec) =
      some "Unable to resolve reference: #/components/schemas/Flag" := by
  exact ⟨rfl, rfl, rfl⟩

/-! ### Normalizer (parseOpenApi.ts)

The normalized model mirrors `types.ts`.  Fields the source copies
verbatim are kept as raw `Option Json`; fields the TypeScript types
declare as strings/booleans and that downstream code consumes as such are
extracted with `asStrOpt`/`boolOrFalse`. -/

/-- `NormalizedSchema` (types.ts): a dereferenced JSON-Schema-like tree.
All scalar members are copied verbatim by `normalizeSchema`, hence raw
`Option Json` here.  Constructor argument order:
type, format, description, example, enum, required, nullable, deprecated,
title, default, minimum, maximum, minLength, maxLength, pattern, minItems,
maxItems, uniqueItems, properties, items, additionalProperties, allOf,
oneOf, anyOf. -/
inductive NormalizedSchema where
  | mk
    (type format description exampleVal enum required nullable deprecated
     title default minimum maximum minLength maxLength pattern minItems
     maxItems uniqueItems : Option Json)
    (properties : Option (List (String × NormalizedSchema)))
    (items : Option NormalizedSchema)
    (additionalProperties : Option (Bool ⊕ NormalizedSchema))
    (allOf oneOf anyOf : Option (List NormalizedSchema))

structure NormalizedParameter where
  name : String
  paramIn : String
  description : Option String
  required : Bool
  deprecated : Bool
  schema : Option NormalizedSchema
  exampleVal : Option Json

structure NormalizedMediaType where
  mediaType : String
  schema : Option NormalizedSchema
  exampleVal : Option Json
  examples : Option (List (String × Json))

structure NormalizedHeader where
  name : String
  description : Option String
  required : Bool
  schema : Option NormalizedSchema
  exampleVal : Option Json

structure NormalizedRequestBody where
  description : Option String
  required : Bool
  content : List NormalizedMediaType

structure NormalizedResponse where
  statusCode : String
  description : String
  content : Option (List NormalizedMediaType)
  headers : Option (List (String × NormalizedHeader))

structure NormalizedEndpoint where
  id : String
  method : String
  path : String
  summary : Option String
  description : Option String
  operationId : Option String
  tags : Option (List String)
  parameters : List NormalizedParameter
  requestBody : Option NormalizedRequestBody
  responses : List NormalizedResponse
  deprecated : Bool
  security : Option Json

/-- `normalizeSchema(schema, spec)`: resolve the node, copy the scalar
members, and recurse into `properties`, `items`, `additionalProperties`
(when not a boolean), `allOf`, `oneOf`, `anyOf`.  The source recursion is
unbounded (cyclic schemas diverge, a documented non-goal); the `fuel`
parameter makes the recursion total, erroring out when exhausted. -/
def normalizeSchema (spec : Json) : Nat → Json → Except String NormalizedSchema
  | 0, _ => .error "normalizeSchema: recursion limit reached (cyclic schema)"
  | fuel + 1, schema => do
    let r ← resolveReference schema spec
    let properties ← match jsGet r "properties" with
      | none => pure none
      | some p =>
        if jsTruthy p then
          match p with
          | .obj entries => some <$> entries.mapM (fun e => do
              let v ← normalizeSchema spec fuel e.2
              pure (e.1, v))
          | _ => .error "TypeError: Object.entries on non-object properties"
        else pure none
    let items ← match jsGet r "items" with
      | none => pure none
      | some it =>
        if jsTruthy it then some <$> normalizeSchema spec fuel it else pure none
    let addProps ← match jsGet r "additionalProperties" with
      | none => pure none
      | some (.bool b) => pure (some (Sum.inl b))
      | some v => (fun x => some (Sum.inr x)) <$> normalizeSchema spec fuel v
    let allOfN ← match jsGet r "allOf" with
      | none => pure none
      | some v =>
        if jsTruthy v then
          match v with
          | .arr xs => some <$> xs.mapM (normalizeSchema spec fuel)
          | _ => .error "TypeError: allOf.map is not a function"
        else pure none
    let oneOfN ← match jsGet r "oneOf" with
      | none => pure none
      | some v =>
        if jsTruthy v then
          match v with
          | .arr xs => some <$> xs.mapM (normalizeSchema spec fuel)
          | _ => .error "TypeError: oneOf.map is not a function"
        else pure none
    let anyOfN ← match jsGet r "anyOf" with
      | none => pure none
      | some v =>
        if jsTruthy v then
          match v with
          | .arr xs => some <$> xs.mapM (normalizeSchema spec fuel)
          | _ => .error "TypeError: anyOf.map is not a function"
        else pure none
    pure (NormalizedSchema.mk (jsGet r "type") (jsGet r "format") (jsGet r "description")
      (jsGet r "example") (jsGet r "enum") (jsGet r "required")
      (jsGet r "nullable") (jsGet r "deprecated") (jsGet r "title")
      (jsGet r "default") (jsGet r "minimum") (jsGet r "maximum")
      (jsGet r "minLength") (jsGet r "maxLength") (jsGet r "pattern")
      (jsGet r "minItems") (jsGet r "maxItems") (jsGet r "uniqueItems")
      properties items addProps allOfN oneOfN anyOfN)

/-- The `resolved.schema ? normalizeSchema(resolved.schema, spec) :
undefined` idiom. -/
def optSchema (spec : Json) (fuel : Nat) (v : Option Json) :
    Except String (Option NormalizedSchema) :=
  match v with
  | none => pure none
  | some s => if jsTruthy s then some <$> normalizeSchema spec fuel s else pure none

def normalizeParameters (spec : Json) (fuel : Nat) :
    List Json → Except String (List NormalizedParameter)
  | [] => pure []
  | p :: ps => do
    let r ← resolveReference p spec
    let schema ← optSchema spec fuel (jsGet r "schema")
    let rest ← normalizeParameters spec fuel ps
    pure ({ name := (asStrOpt (jsGet r "name")).getD "",
            paramIn := (asStrOpt (jsGet r "in")).getD "",
            description := asStrOpt (jsGet r "description"),
            required := boolOrFalse (jsGet r "required"),
            deprecated := boolOrFalse (jsGet r "deprecated"),
            schema := schema,
            exampleVal := jsGet r "example" } :: rest)

/-- `normalizeMediaType(mediaType, content, spec)`.  For each named
example the source writes `resolveReference(example, spec).value ||
example`. -/
def normalizeMediaType (spec : Json) (fuel : Nat) (mt : String) (content : Json) :
    Except String NormalizedMediaType := do
  let schema ← optSchema spec fuel (jsGet content "schema")
  let examples ← match jsGet content "examples" with
    | none => pure none
    | some ex =>
      if jsTruthy ex then
        match ex with
        | .obj entries => some <$> entries.mapM (fun e => do
            let r ← resolveReference e.2 spec
            let v := match jsGet r "value" with
              | some w => if jsTruthy w then w else e.2
              | none => e.2
            pure (e.1, v))
        | _ => .error "TypeError: Object.entries on non-object examples"
      else pure none
  pure { mediaType := mt, schema := schema,
         exampleVal := jsGet content "example", examples := examples }

/-- `normalizeRequestBody`: `Object.entries(resolved.content)` is applied
unconditionally, so an absent or non-object `content` is a `TypeError`. -/
def normalizeRequestBody (spec : Json) (fuel : Nat) (rb : Json) :
    Except String NormalizedRequestBody := do
  let r ← resolveReference rb spec
  let content ← match jsGet r "content" with
    | some (.obj entries) => entries.mapM (fun e => normalizeMediaType spec fuel e.1 e.2)
    | _ => .error "TypeError: Object.entries on request body content"
  pure { description := asStrOpt (jsGet r "description"),
         required := boolOrFalse (jsGet r "required"),
         content := content }

/-- One entry of a response `headers` map.  The source resolves the header
reference once per copied field; the resolver is pure, so the single
shared call here is observationally identical. -/
def normalizeHeaderEntry (spec : Json) (fuel : Nat) (name : String) (hd : Json) :
    Except String (String × NormalizedHeader) := do
  let r ← resolveReference hd spec
  let schema ← optSchema spec fuel (jsGet r "schema")
  pure (name, { name := name,
                description := asStrOpt (jsGet r "description"),
                required := boolOrFalse (jsGet r "required"),
                schema := schema,
                exampleVal := jsGet r "example" })

def normalizeResponses (spec : Json) (fuel : Nat)
    (entries : List (String × Json)) : Except String (List NormalizedResponse) :=
  entries.mapM (fun e => do
    let r ← resolveReference e.2 spec
    let content ← match jsGet r "content" with
      | none => pure none
      | some c =>
        if jsTruthy c then
          match c with
          | .obj ces => some <$> ces.mapM (fun ce => normalizeMediaType spec fuel ce.1 ce.2)
          | _ => .error "TypeError: Object.entries on non-object response content"
        else pure none
    let headers ← match jsGet r "headers" with
      | none => pure none
      | some h =>
        if jsTruthy h then
          match h with
          | .obj hes => some <$> hes.mapM (fun he => normalizeHeaderEntry spec fuel he.1 he.2)
          | _ => .error "TypeError: Object.entries on non-object response headers"
        else pure none
    pure { statusCode := e.1,
           description := (asStrOpt (jsGet r "description")).getD "",
           content := content,
           headers := headers })

/-- JS `s.toUpperCase()` on the ASCII method names used here. -/
def strToUpper (s : String) : String := String.mk (s.data.map Char.toUpper)

/-- `path.replace(/[^a-zA-Z0-9]/g, "_")`. -/
def slugifyPath (path : String) : String :=
  String.mk (path.data.map (fun c => if c.isAlphanum then c else '_'))

/-- `generateEndpointId(method, path, operationId)`: the declared
`operationId` when truthy (a non-empty string), else
`METHOD_path-with-non-alphanumerics-replaced`. -/
def generateEndpointId (method path : String) (operationId : Option String) : String :=
  match operationId with
  | some oid => if oid = "" then strToUpper method ++ "_" ++ slugifyPath path else oid
  | none => strToUpper method ++ "_" ++ slugifyPath path

/-- `normalizeEndpoint(path, method, operation, spec)`. -/
def normalizeEndpoint (fuel : Nat) (spec : Json) (path method : String) (op : Json) :
    Except String NormalizedEndpoint := do
  let parameters ← match jsGet op "parameters" with
    | none => pure []
    | some v =>
      if jsTruthy v then
        match v with
        | .arr xs => normalizeParameters spec fuel xs
        | _ => .error "TypeError: parameters.map is not a function"
      else pure []
  let requestBody ← match jsGet op "requestBody" with
    | none => pure none
    | some rb =>
      if jsTruthy rb then some <$> normalizeRequestBody spec fuel rb else pure none
  let responses ← match jsGet op "responses" with
    | some (.obj entries) => normalizeResponses spec fuel entries
    | _ => .error "TypeError: Object.entries on operation responses"
  pure { id := generateEndpointId method path (asStrOpt (jsGet op "operationId")),
         method := method,
         path := path,
         summary := asStrOpt (jsGet op "summary"),
         description := asStrOpt (jsGet op "description"),
         operationId := asStrOpt (jsGet op "operationId"),
         tags := asStrListOpt (jsGet op "tags"),
         parameters := parameters,
         requestBody := requestBody,
         responses := responses,
         deprecated := boolOrFalse (jsGet op "deprecated"),
         security := jsGet op "security" }

/-- The eight HTTP method keys, in the fixed iteration order of
`extractEndpoints`. -/
def httpMethods : List String :=
  ["get", "post", "put", "delete", "patch", "options", "head", "trace"]

/-- The inner loop of `extractEndpoints`: for each method key in order,
`const operation = pathItem[method]; if (operation) push(normalize(...))`. -/
def endpointsForMethods (fuel : Nat) (spec : Json) (path : String) (pathItem : Json) :
    List String → Except String (List NormalizedEndpoint)
  | [] => .ok []
  | m :: ms =>
    match jsGet pathItem m with
    | none => endpointsForMethods fuel spec path pathItem ms
    | some op =>
      if jsTruthy op then
        match normalizeEndpoint fuel spec path m op with
        | .error e => .error e
        | .ok ep =>
          match endpointsForMethods fuel spec path pathItem ms with
          | .error e => .error e
          | .ok rest => .ok (ep :: rest)
      else endpointsForMethods fuel spec path pathItem ms

/-- The outer loop of `extractEndpoints`: `Object.entries(spec.paths)` in
declaration order. -/
def extractFromEntries (fuel : Nat) (spec : Json) :
    List (String × Json) → Except String (List NormalizedEndpoint)
  | [] => .ok []
  | (p, item) :: rest =>
    match endpointsForMethods fuel spec p item httpMethods with
    | .error e => .error e
    | .ok es =>
      match extractFromEntries fuel spec rest with
      | .error e => .error e
      | .ok others => .ok (es ++ others)

def extractEndpoints (fuel : Nat) (spec : Json) :
    Except String (List NormalizedEndpoint) :=
  match jsGet spec "paths" with
  | some (.obj entries) => extractFromEntries fuel spec entries
  | _ => .error "TypeError: Object.entries on spec paths"

/-- `extractSchemas`: `if (!spec.components?.schemas) return {}` then one
`normalizeSchema` per named schema. -/
def extractSchemas (fuel : Nat) (spec : Json) :
    Except String (List (String × NormalizedSchema)) :=
  match jsGet spec "components" with
  | none => .ok []
  | some comps =>
    match jsGet comps "schemas" with
    | none => .ok []
    | some sch =>
      if jsTruthy sch then
        match sch with
        | .obj entries => entries.mapM (fun e => do
            let v ← normalizeSchema spec fuel e.2
            pure (e.1, v))
        | _ => .error "TypeError: Object.entries on non-object schemas"
      else .ok []

structure ParsedApiSpec where
  info : Option Json
  servers : List Json
  endpoints : List NormalizedEndpoint
  schemas : List (String × NormalizedSchema)
  tags : List Json
  securitySchemes : Option Json

/-- `parseOpenApi(spec)` for an already-parsed object input.  `servers`
and `tags` are `spec.servers || []` / `spec.tags || []` (array on
well-typed input). -/
def parseOpenApi (fuel : Nat) (spec : Json) : Except String ParsedApiSpec := do
  let endpoints ← extractEndpoints fuel spec
  let schemas ← extractSchemas fuel spec
  pure { info := jsGet spec "info",
         servers := (match jsGet spec "servers" with | some (.arr xs) => xs | _ => []),
         endpoints := endpoints,
         schemas := schemas,
         tags := (match jsGet spec "tags" with | some (.arr xs) => xs | _ => []),
         securitySchemes :=
           (match jsGet spec "components" with
            | some c => jsGet c "securitySchemes"
            | none => none) }

/-- `findEndpointById(endpoints, id)`:
`endpoints.find(endpoint => endpoint.id === id)`. -/
def findEndpointById (endpoints : List NormalizedEndpoint) (id : String) :
    Option NormalizedEndpoint :=
  endpoints.find? (fun ep => ep.id == id)

/-! ### Claim C1: endpoint count -/

/-- Number of the eight HTTP method keys present (non-undefined) on a path
item. -/
def countPresentMethods (pathItem : Json) : Nat :=
  (httpMethods.filter (fun m => (jsGet pathItem m).isSome)).length

/-- Sum of present method keys across all path items of `spec.paths`. -/
def specMethodCount (spec : Json) : Nat :=
  match jsGet spec "paths" with
  | some (.obj entries) => (entries.map (fun e => countPresentMethods e.2)).sum
  | _ => 0

/-- Well-typedness of `paths` per the OpenAPI TS types: every
present method key holds an `Operation` object, hence a truthy value. -/
def wellTypedPathsB (spec : Json) : Bool :=
  match jsGet spec "paths" with
  | some (.obj entries) =>
    entries.all (fun e => httpMethods.all (fun m =>
      match jsGet e.2 m with
      | some v => jsTruthy v
      | none => true))
  | _ => true

theorem endpointsForMethods_length (fuel : Nat) (spec : Json) (path : String)
    (pathItem : Json) (ms : List String) (es : List NormalizedEndpoint)
    (h : endpointsForMethods fuel spec path pathItem ms = .ok es)
    (ht : ∀ m ∈ ms, ∀ v, jsGet pathItem m = some v → jsTruthy v = true) :
    es.length = (ms.filter (fun m => (jsGet pathItem m).isSome)).length := by
  induction ms generalizing es with
  | nil =>
    simp only [endpointsForMethods, Except.ok.injEq] at h
    subst h
    rfl
  | cons m ms ih =>
    unfold endpointsForMethods at h
    cases hm : jsGet pathItem m with
    | none =>
      rw [hm] at h
      have := ih es h (fun m2 hm2 => ht m2 (List.mem_cons_of_mem _ hm2))
      simp [List.filter, hm, this]
    | some op =>
      have htr : jsTruthy op = true := ht m (List.mem_cons_self _ _) op hm
      rw [hm] at h
      simp only [htr, if_true] at h
      cases hne : normalizeEndpoint fuel spec path m op with
      | error e => rw [hne] at h; exact absurd h (by simp)
      | ok ep =>
        rw [hne] at h
        cases hrest : endpointsForMethods fuel spec path pathItem ms with
        | error e => rw [hrest] at h; exact absurd h (by simp)
        | ok rest =>
          rw [hrest] at h
          simp only [Except.ok.injEq] at h
          subst h
          have := ih rest hrest (fun m2 hm2 => ht m2 (List.mem_cons_of_mem _ hm2))
          simp [List.filter, hm, this]

theorem extractFromEntries_length (fuel : Nat) (spec : Json)
    (entries : List (String × Json)) (es : List NormalizedEndpoint)
    (h : extractFromEntries fuel spec entries = .ok es)
    (ht : ∀ e ∈ entries, ∀ m ∈ httpMethods, ∀ v, jsGet e.2 m = some v → jsTruthy v = true) :
    es.length = (entries.map (fun e => countPresentMethods e.2)).sum := by
  induction entries generalizing es with
  | nil =>
    simp only [extractFromEntries, Except.ok.injEq] at h
    subst h
    rfl
  | cons pe rest ih =>
    obtain ⟨p, item⟩ := pe
    unfold extractFromEntries at h
    cases h1 : endpointsForMethods fuel spec p item httpMethods with
    | error e => rw [h1] at h; exact absurd h (by simp)
    | ok es1 =>
      rw [h1] at h
      cases h2 : extractFromEntries fuel spec rest with
      | error e => rw [h2] at h; exact absurd h (by simp)
      | ok others =>
        rw [h2] at h
        simp only [Except.ok.injEq] at h
        subst h
        have hl1 := endpointsForMethods_length fuel spec p item httpMethods es1 h1
          (fun m hm v hv => ht (p, item) (List.mem_cons_self _ _) m hm v hv)
        have hl2 := ih others h2 (fun e he => ht e (List.mem_cons_of_mem _ he))
        simp [List.length_append, hl1, hl2, countPresentMethods]

/-- Claim C1: whenever `extractEndpoints` succeeds on a (well-typed)
OpenAPI document, the produced endpoint array has length equal to the sum,
over all path items of `paths`, of the number of the eight HTTP method
keys present on that path item — one `NormalizedEndpoint` per present
operation. -/
theorem c1_theorem (fuel : Nat) (spec : Json) (eps : List NormalizedEndpoint)
    (h : extractEndpoints fuel spec = .ok eps)
    (hw : wellTypedPathsB spec = true) :
    eps.length = specMethodCount spec := by
  unfold extractEndpoints at h
  unfold specMethodCount
  unfold wellTypedPathsB at hw
  cases hp : jsGet spec "paths" with
  | none => rw [hp] at h; exact absurd h (by simp)
  | some v =>
    rw [hp] at h hw
    cases v with
    | obj entries =>
      refine extractFromEntries_length fuel spec entries eps h ?_
      intro e he m hm w hwv
      have h1 := (List.all_eq_true.mp hw) e he
      have h2 := (List.all_eq_true.mp h1) m hm
      rw [hwv] at h2
      exact h2
    | null => exact absurd h (by simp)
    | bool b => exact absurd h (by simp)
    | num n => exact absurd h (by simp)
    | str s => exact absurd h (by simp)
    | arr xs => exact absurd h (by simp)

/-- Sample document for the C1 witness: two path items carrying three
operations in total. -/
def c1SampleSpec : Json :=
  .obj [("openapi", .str "3.0.0"),
        ("info", .obj [("title", .str "T"), ("version", .str "1.0.0")]),
        ("paths", .obj
          [("/users", .obj
            [("get", .obj [("operationId", .str "listUsers"),
                           ("responses", .obj [("200", .obj [("description", .str "OK")])])]),
             ("post", .obj [("operationId", .str "createUser"),
                            ("responses", .obj [("201", .obj [("description", .str "Created")])])])]),
           ("/users/\x7bid\x7d", .obj
            [("get", .obj [("operationId", .str "getUser"),
                           ("responses", .obj [("200", .obj [("description", .str "OK")])])])])])]

theorem c1_witness :
    wellTypedPathsB c1SampleSpec = true ∧
    specMethodCount c1SampleSpec = 3 ∧
    (extractEndpoints 32 c1SampleSpec).map List.length = .ok (specMethodCount c1SampleSpec) := by
  refine ⟨rfl, rfl, ?_⟩
  have h : extractEndpoints 32 c1SampleSpec =
      .ok ((extractEndpoints 32 c1SampleSpec).toOption.getD []) := rfl
  have h2 := c1_theorem 32 c1SampleSpec
    ((extractEndpoints 32 c1SampleSpec).toOption.getD []) h rfl
  rw [h]
  simp only [Except.map, h2]

/-! ### Claim C2: `findEndpointById` -/

theorem c2_theorem (eps : List NormalizedEndpoint) (i : Nat) (e : NormalizedEndpoint)
    (hget : eps.get? i = some e)
    (hnodup : (eps.map (fun x => x.id)).Nodup) :
    findEndpointById eps e.id = some e := by
  induction eps generalizing i with
  | nil => simp at hget
  | cons a rest ih =>
    cases i with
    | zero =>
      simp only [List.get?] at hget
      injection hget with hh
      subst hh
      simp [findEndpointById, List.find?]
    | succ n =>
      simp only [List.get?] at hget
      have hmem : e ∈ rest := List.get?_mem hget
      have hidmem : e.id ∈ rest.map (fun x => x.id) := List.mem_map_of_mem _ hmem
      simp only [List.map_cons, List.nodup_cons] at hnodup
      have hne : ¬ (a.id == e.id) = true := by
        intro hcontra
        exact hnodup.1 (by rw [beq_iff_eq] at hcontra; rw [hcontra]; exact hidmem)
      unfold findEndpointById at *
      rw [List.find?]
      rw [Bool.eq_false_iff.mpr hne]
      exact ih n hget hnodup.2

/-- Sample document for the C2 counterexample: two different operations
both declare `operationId: "dup"`, so both normalized endpoints receive
the id `"dup"`. -/
def c2DupSpec : Json :=
  .obj [("paths", .obj
    [("/a", .obj [("get", .obj [("operationId", .str "dup"),
        ("responses", .obj [("200", .obj [("description", .str "ok")])])])]),
     ("/b", .obj [("get", .obj [("operationId", .str "dup"),
        ("responses", .obj [("200", .obj [("description", .str "ok")])])])])])]

def c2DupEndpoints : List NormalizedEndpoint :=
  (extractEndpoints 32 c2DupSpec).toOption.getD []

/-- Claim C2 counterexample: on a duplicate-id spec, the second normalized
endpoint `e` (path `/b`) has `findEndpointById(endpoints, e.id)` returning
the first endpoint (path `/a`), not `e` itself — lookup is not an inverse
of id assignment when ids collide. -/
theorem c2_counterexample :
    c2DupEndpoints.map (fun e => e.id) = ["dup", "dup"] ∧
    c2DupEndpoints.map (fun e => e.path) = ["/a", "/b"] ∧
    ((c2DupEndpoints.get? 1).bind
        (fun e => findEndpointById c2DupEndpoints e.id)).map (fun e => e.path) = some "/a" ∧
    (c2DupEndpoints.get? 1).bind (fun e => findEndpointById c2DupEndpoints e.id) ≠
      c2DupEndpoints.get? 1 := by
  refine ⟨rfl, rfl, rfl, ?_⟩
  intro hcontra
  have h1 : ((c2DupEndpoints.get? 1).bind
      (fun e => findEndpointById c2DupEndpoints e.id)).map (fun e => e.path) = some "/a" := rfl
  have h2 : (c2DupEndpoints.get? 1).map (fun e => e.path) = some "/b" := rfl
  rw [hcontra, h2] at h1
  exact absurd h1 (by simp)

def c2OkEndpoints : List NormalizedEndpoint :=
  (extractEndpoints 32 c1SampleSpec).toOption.getD []

def c2DefaultEndpoint : NormalizedEndpoint :=
  ⟨"", "", "", none, none, none, none, [], none, [], false, none⟩

theorem c2_witness :
    (c2OkEndpoints.map (fun x => x.id)).Nodup ∧
    ((c2OkEndpoints.get? 0).getD c2DefaultEndpoint).id = "listUsers" ∧
    findEndpointById c2OkEndpoints ((c2OkEndpoints.get? 0).getD c2DefaultEndpoint).id =
      some ((c2OkEndpoints.get? 0).getD c2DefaultEndpoint) := by
  have hnd : (c2OkEndpoints.map (fun x => x.id)).Nodup := by
    rw [show c2OkEndpoints.map (fun x => x.id) = ["listUsers", "createUser", "getUser"] from rfl]
    decide
  exact ⟨hnd, rfl, c2_theorem c2OkEndpoints 0 _ rfl hnd⟩

/-! ### Parse of string spec input (`parseSpecString`, parseOpenApi.ts)

```js
function parseSpecString(specString) {
  try { return JSON.parse(specString); }
  catch (jsonError) {
    try {
      const parsed = yaml.load(specString);
      if (typeof parsed === "object" && parsed !== null) return parsed;
      throw new Error("Parsed YAML is not a valid object");
    } catch (yamlError) {
      throw new Error(`Failed to parse OpenAPI specification. Invalid JSON: ` +
        `${jsonError.message}. Invalid YAML: ${yamlError.message}`);
    }
  }
}
```
`JSON.parse` and `js-yaml`'s `load` are external collaborators; they are
taken as parameters. -/

/-- JS `typeof v === "object"` (arrays and `null` included). -/
def jsTypeofObject : Json → Bool
  | .obj _ => true
  | .arr _ => true
  | .null => true
  | _ => false

def parseFailMsg (jsonErr yamlErr : String) : String :=
  "Failed to parse OpenAPI specification. Invalid JSON: " ++ jsonErr ++
    ". Invalid YAML: " ++ yamlErr

def parseSpecString (jsonParse yamlParse : String → Except String Json)
    (s : String) : Except String Json :=
  match jsonParse s with
  | .ok v => .ok v
  | .error jsonErr =>
    match yamlParse s with
    | .ok parsed =>
      if jsTypeofObject parsed && !parsed.isNull then .ok parsed
      else .error (parseFailMsg jsonErr "Parsed YAML is not a valid object")
    | .error yamlErr => .error (parseFailMsg jsonErr yamlErr)

/-- Claim C7: for every top-level string input on which both underlying
parsers fail, `parseSpecString` fails with the combined parse error, whose
message contains both underlying parser messages and is a parse error (it
starts with "Failed to parse OpenAPI specification", unlike
reference-resolution errors, which start with "Unable to resolve
reference"). -/
theorem c7_theorem (jsonParse yamlParse : String → Except String Json)
    (s jsonErr yamlErr : String)
    (hj : jsonParse s = .error jsonErr)
    (hy : yamlParse s = .error yamlErr) :
    parseSpecString jsonParse yamlParse s = .error (parseFailMsg jsonErr yamlErr) ∧
    strContains (parseFailMsg jsonErr yamlErr) jsonErr ∧
    strContains (parseFailMsg jsonErr yamlErr) yamlErr ∧
    (∃ rest : List Char, (parseFailMsg jsonErr yamlErr).data =
      ("Failed to parse OpenAPI specification").data ++ rest) := by
  refine ⟨?_, ?_, ?_, ?_⟩
  · simp [parseSpecString, hj, hy]
  · exact ⟨("Failed to parse OpenAPI specification. Invalid JSON: ").data,
      (". Invalid YAML: " ++ yamlErr).data, by simp [parseFailMsg, strData_append]⟩
  · exact ⟨("Failed to parse OpenAPI specification. Invalid JSON: " ++ jsonErr ++
        ". Invalid YAML: ").data, [], by simp [parseFailMsg, strData_append]⟩
  · exact ⟨(". Invalid JSON: " ++ jsonErr ++ ". Invalid YAML: " ++ yamlErr).data,
      by simp [parseFailMsg, strData_append]⟩

def c7JsonParse : String → Except String Json := fun _ =>
  .error "Unexpected token z in JSON at position 0"

def c7YamlParse : String → Except String Json := fun _ =>
  .error "bad indentation of a mapping entry"

theorem c7_witness :
    c7JsonParse "zzz: [" = .error "Unexpected token z in JSON at position 0" ∧
    c7YamlParse "zzz: [" = .error "bad indentation of a mapping entry" ∧
    parseSpecString c7JsonParse c7YamlParse "zzz: [" =
      .error (parseFailMsg "Unexpected token z in JSON at position 0"
        "bad indentation of a mapping entry") ∧
    strContains (parseFailMsg "Unexpected token z in JSON at position 0"
        "bad indentation of a mapping entry") "Unexpected token z in JSON at position 0" := by
  have h := c7_theorem c7JsonParse c7YamlParse "zzz: ["
    "Unexpected token z in JSON at position 0" "bad indentation of a mapping entry" rfl rfl
  exact ⟨rfl, rfl, h.1, h.2.1⟩

/-! ### Spec loader (`useApiLoader`, loadSpec)

```js
const loadSpec = useCallback(async (config) => {
  setLoading(true);
  setError(null);
  try {
    let parsedSpec;
    if (config.url) { setCurrentUrl(config.url); parsedSpec = await loadFromUrl(config.url, config); }
    else if (config.spec) { setCurrentUrl(undefined); parsedSpec = loadFromSpec(config.spec); }
    else { throw new Error("Either url or spec must be provided"); }
    setSpec(parsedSpec);
  } catch (err) { setError(...); setSpec(null); }
  finally { setLoading(false); }
}, ...);
```
The embedding captures the synchronous segment of one `loadSpec` call: the
sequence of hook states it writes, and whether it suspends awaiting a URL
fetch.  `parseOpenApi` applied to the inline spec is abstracted as a
`parse` parameter. -/

/-- Inline spec input: an object or a raw string. -/
inductive SpecInput where
  | strInput (s : String)
  | objInput (j : Json)

/-- The loader config fields that determine dispatch.  `cacheDuration`,
`fetcher`, `retries` and `retryDelay` only affect the URL branch after the
first await and are not part of the synchronous dispatch modelled here. -/
structure ApiLoaderConfig where
  url : Option String
  spec : Option SpecInput

def jsTruthyOptStr : Option String → Bool
  | some s => !(s = "")
  | none => false

def jsTruthySpec : Option SpecInput → Bool
  | some (.strInput s) => !(s = "")
  | some (.objInput _) => true
  | none => false

structure LoaderState where
  loading : Bool
  error : Option String
  specLoaded : Bool
  deriving DecidableEq

/-- One synchronous run of `loadSpec`: the list of states written (in
write order, starting from `st0`), and `some url` when the call suspended
into the asynchronous URL-fetch path. -/
def loadSpecTrace (parse : SpecInput → Except String Unit) (st0 : LoaderState)
    (config : ApiLoaderConfig) : List LoaderState × Option String :=
  let st1 : LoaderState := { st0 with loading := true, error := none }
  if jsTruthyOptStr config.url then
    ([st1], some (config.url.getD ""))
  else if jsTruthySpec config.spec then
    match parse (config.spec.getD (.objInput .null)) with
    | .ok _ =>
      let st2 := { st1 with specLoaded := true }
      let st3 := { st2 with loading := false }
      ([st1, st2, st3], none)
    | .error e =>
      let st2 := { st1 with error := some e, specLoaded := false }
      let st3 := { st2 with loading := false }
      ([st1, st2, st3], none)
  else
    let st2 := { st1 with error := some "Either url or spec must be provided", specLoaded := false }
    let st3 := { st2 with loading := false }
    ([st1, st2, st3], none)

def c4ParseOk : SpecInput → Except String Unit := fun _ => .ok ()

def c4Initial : LoaderState := { loading := false, error := none, specLoaded := false }

def c4ConfigBoth : ApiLoaderConfig :=
  { url := some "https://x/api.json", spec := some (.objInput (.obj [])) }

def c4ConfigNeither : ApiLoaderConfig := { url := none, spec := none }

/-- Claim C4 counterexample: when both `url` and `spec` are supplied,
`loadSpec` raises no error at all — the URL branch wins and a fetch is
started (the claim demanded an immediate error for "both supplied"); and
even the neither-supplied error path first sets `loading` to `true`
(the claim demanded an error "without ever entering the loading
state"). -/
theorem c4_counterexample :
    (loadSpecTrace c4ParseOk c4Initial c4ConfigBoth).2 = some "https://x/api.json" ∧
    (loadSpecTrace c4ParseOk c4Initial c4ConfigBoth).1.map (fun st => st.error) = [none] ∧
    (loadSpecTrace c4ParseOk c4Initial c4ConfigNeither).1.map (fun st => st.loading) =
      [true, true, false] := by
  exact ⟨rfl, rfl, rfl⟩

/-- Claim C4 (amended): `loadSpec` does not enforce "exactly one of url
and spec".  When `config.url` is truthy the URL branch is taken
unconditionally (even if `config.spec` is also supplied) and no immediate
error is raised; only when neither `config.url` nor `config.spec` is
truthy does `loadSpec` error immediately with "Either url or spec must be
provided" and attempt no load — and even then the `loading` flag is
transiently set `true` before being reset `false` in the same synchronous
block. -/
theorem c4_theorem (parse : SpecInput → Except String Unit) (st0 : LoaderState)
    (config : ApiLoaderConfig) :
    (jsTruthyOptStr config.url = true →
      (loadSpecTrace parse st0 config).2 = some (config.url.getD "") ∧
      (loadSpecTrace parse st0 config).1.map (fun st => st.error) = [none]) ∧
    (jsTruthyOptStr config.url = false → jsTruthySpec config.spec = false →
      (loadSpecTrace parse st0 config).2 = none ∧
      (loadSpecTrace parse st0 config).1.map (fun st => st.error) =
        [none, some "Either url or spec must be provided",
          some "Either url or spec must be provided"] ∧
      (loadSpecTrace parse st0 config).1.map (fun st => st.loading) = [true, true, false]) := by
  constructor
  · intro hu
    simp [loadSpecTrace, hu]
  · intro hu hs
    simp [loadSpecTrace, hu, hs]

theorem c4_witness :
    jsTruthyOptStr c4ConfigNeither.url = false ∧
    jsTruthySpec c4ConfigNeither.spec = false ∧
    ((loadSpecTrace c4ParseOk c4Initial c4ConfigNeither).2 = none ∧
      (loadSpecTrace c4ParseOk c4Initial c4ConfigNeither).1.map (fun st => st.error) =
        [none, some "Either url or spec must be provided",
          some "Either url or spec must be provided"] ∧
      (loadSpecTrace c4ParseOk c4Initial c4ConfigNeither).1.map (fun st => st.loading) =
        [true, true, false]) := by
  exact ⟨rfl, rfl, (c4_theorem c4ParseOk c4Initial c4ConfigNeither).2 rfl rfl⟩

/-! ### Search engine (`useSearch`)

`fuzzyMatch`, `searchInEndpoint` and the `filteredResults` memo from
`useSearch.ts`.  JS float arithmetic on scores is modelled exactly over
`ℚ` (the weights 2, 1.5, 1.8, 1.7, 1.3, 1.2, 1.1 and the factor 0.7 are
written as rationals). -/

/-- JS `s.toLowerCase()` (ASCII data in this development). -/
def strToLower (s : String) : String := String.mk (s.data.map Char.toLower)

/-- `normalizeText`: identity when case-sensitive, else lower-case. -/
def normalizeText (caseSensitive : Bool) (text : String) : String :=
  if caseSensitive then text else strToLower text

/-- The counting loop of `fuzzyMatch`: walk the text once, advancing a
pointer into the query on every character match; returns the `matches`
counter and the unconsumed remainder of the query. -/
def fuzzyScan : List Char → List Char → Nat → Nat × List Char
  | _, [], m => (m, [])
  | [], q, m => (m, q)
  | c :: ts, qc :: qs, m =>
    if c = qc then fuzzyScan ts qs (m + 1) else fuzzyScan ts (qc :: qs) m

/-- `fuzzyMatch(query, text)` of `useSearch.ts`: 1 on a substring match;
else, with fuzzy search enabled, `(matches / query.length) * 0.7` when the
whole query was consumed in order, else 0. -/
def fuzzyMatch (caseSensitive fuzzySearch : Bool) (query text : String) : ℚ :=
  let nq := normalizeText caseSensitive query
  let nt := normalizeText caseSensitive text
  if strContainsB nt nq then 1
  else if !fuzzySearch then 0
  else
    let scan := fuzzyScan nt.data nq.data 0
    if scan.2 = [] then ((scan.1 : ℚ) / (nq.data.length : ℚ)) * (7 / 10) else 0

/-- The per-field fuzzy score as claim C5 reads the specification:
`(matched-chars-in-order / query-length) * 0.7`, regardless of whether the
whole query was consumed.  (Spec-side definition, for comparison with the
source-side `fuzzyMatch`.) -/
def specClaimedFuzzyScore (caseSensitive : Bool) (query text : String) : ℚ :=
  ((fuzzyScan (normalizeText caseSensitive text).data
      (normalizeText caseSensitive query).data 0).1 : ℚ) /
    ((normalizeText caseSensitive query).data.length : ℚ) * (7 / 10)

theorem fuzzyScan_spec : ∀ (t q : List Char) (m : Nat),
    (fuzzyScan t q m).1 + (fuzzyScan t q m).2.length = m + q.length := by
  intro t
  induction t with
  | nil => intro q m; cases q <;> simp [fuzzyScan]
  | cons c ts ih =>
    intro q m
    cases q with
    | nil => simp [fuzzyScan]
    | cons qc qs =>
      by_cases hc : c = qc
      · have := ih qs (m + 1)
        simp only [fuzzyScan, if_pos hc, List.length_cons]
        omega
      · have := ih (qc :: qs) m
        simp only [List.length_cons] at this
        simp only [fuzzyScan, if_neg hc, List.length_cons]
        omega

theorem listContains_nil_query (t : List Char) : listContains [] t = true := by
  cases t <;> rfl

/-- Claim C5 (amended): the per-field score is 1 on a (case-normalized)
substring match; otherwise 0 when fuzzy search is off; otherwise, with
fuzzy search on, the `(matches / query-length) * 0.7` value is returned
only when the *entire* query occurs in order in the text — in which case
it always equals exactly 0.7 — and a query whose characters appear only
partially in order scores 0, not a proportional fraction. -/
theorem c5_theorem (caseSensitive fuzzySearch : Bool) (query text : String) :
    (strContainsB (normalizeText caseSensitive text) (normalizeText caseSensitive query) = true →
      fuzzyMatch caseSensitive fuzzySearch query text = 1) ∧
    (strContainsB (normalizeText caseSensitive text) (normalizeText caseSensitive query) = false →
      fuzzySearch = false →
      fuzzyMatch caseSensitive fuzzySearch query text = 0) ∧
    (strContainsB (normalizeText caseSensitive text) (normalizeText caseSensitive query) = false →
      fuzzySearch = true →
      (fuzzyScan (normalizeText caseSensitive text).data
        (normalizeText caseSensitive query).data 0).2 ≠ [] →
      fuzzyMatch caseSensitive fuzzySearch query text = 0) ∧
    (strContainsB (normalizeText caseSensitive text) (normalizeText caseSensitive query) = false →
      fuzzySearch = true →
      (fuzzyScan (normalizeText caseSensitive text).data
        (normalizeText caseSensitive query).data 0).2 = [] →
      fuzzyMatch caseSensitive fuzzySearch query text =
        specClaimedFuzzyScore caseSensitive query text ∧
      fuzzyMatch caseSensitive fuzzySearch query text = 7 / 10) := by
  refine ⟨?_, ?_, ?_, ?_⟩
  · intro hc
    simp [fuzzyMatch, hc]
  · intro hc hf
    simp [fuzzyMatch, hc, hf]
  · intro hc hf hrem
    simp [fuzzyMatch, hc, hf, hrem]
  · intro hc hf hrem
    have hq : (normalizeText caseSensitive query).data ≠ [] := by
      intro hnil
      rw [show strContainsB (normalizeText caseSensitive text)
          (normalizeText caseSensitive query) =
          listContains (normalizeText caseSensitive query).data
            (normalizeText caseSensitive text).data from rfl, hnil,
        listContains_nil_query] at hc
      exact absurd hc (by simp)
    have hlen : ((normalizeText caseSensitive query).data.length : ℚ) ≠ 0 := by
      simp only [ne_eq, Nat.cast_eq_zero, List.length_eq_zero]
      exact hq
    have hm := fuzzyScan_spec (normalizeText caseSensitive text).data
      (normalizeText caseSensitive query).data 0
    rw [hrem] at hm
    simp only [List.length_nil, add_zero, Nat.zero_add] at hm
    constructor
    · simp [fuzzyMatch, specClaimedFuzzyScore, hc, hf, hrem]
    · have : fuzzyMatch caseSensitive fuzzySearch query text =
        (((fuzzyScan (normalizeText caseSensitive text).data
            (normalizeText caseSensitive query).data 0).1 : ℚ) /
          ((normalizeText caseSensitive query).data.length : ℚ)) * (7 / 10) := by
        simp [fuzzyMatch, hc, hf, hrem]
      rw [this, hm]
      rw [div_self hlen, one_mul]

/-- Claim C5 counterexample: query `"ab"`, text `"xa"`, fuzzy search on.
Only one of the two query characters appears in order, so the claimed
formula gives `(1/2)*0.7 = 7/20`, but the implementation returns 0. -/
theorem c5_counterexample :
    fuzzyMatch false true "ab" "xa" = 0 ∧
    specClaimedFuzzyScore false "ab" "xa" = 7 / 20 ∧
    fuzzyMatch false true "ab" "xa" ≠ specClaimedFuzzyScore false "ab" "xa" := by
  have h1 : fuzzyMatch false true "ab" "xa" = 0 := rfl
  have hscan : fuzzyScan (normalizeText false "xa").data (normalizeText false "ab").data 0 =
      (1, ['b']) := rfl
  have hlen : ((normalizeText false "ab").data.length : ℚ) = 2 := rfl
  have h2 : specClaimedFuzzyScore false "ab" "xa" = 7 / 20 := by
    unfold specClaimedFuzzyScore
    rw [hscan, hlen]
    norm_num
  refine ⟨h1, h2, ?_⟩
  rw [h1, h2]
  norm_num

theorem c5_witness :
    (strContainsB (normalizeText false "bcd") (normalizeText false "bd") = false) ∧
    ((fuzzyScan (normalizeText false "bcd").data (normalizeText false "bd").data 0).2 = []) ∧
    (fuzzyMatch false true "bd" "bcd" = specClaimedFuzzyScore false "bd" "bcd" ∧
      fuzzyMatch false true "bd" "bcd" = 7 / 10) := by
  exact ⟨rfl, rfl, (c5_theorem false true "bd" "bcd").2.2.2 rfl rfl rfl⟩

/-! ### Search filtering, scoring and ranking (`useSearch`) -/

structure SearchOptions where
  searchFields : List String
  caseSensitive : Bool
  fuzzySearch : Bool
  minQueryLength : Nat

structure SearchFilters where
  query : Option String
  methods : Option (List String)
  tags : Option (List String)
  deprecated : Option Bool
  hasParameters : Option Bool
  hasRequestBody : Option Bool
  responseStatusCodes : Option (List String)

structure SearchResult where
  endpoint : NormalizedEndpoint
  score : ℚ
  matchedFields : List String
  highlights : List (String × String)

/-- Assignment `record[key] = value` on a JS string-record: overwrite in
place when the key exists, else append. -/
def recSetStr (r : List (String × String)) (k v : String) : List (String × String) :=
  if (r.map Prod.fst).contains k then
    r.map (fun kv => if kv.1 = k then (k, v) else kv)
  else r ++ [(k, v)]

/-- JS `array.join(", ")`. -/
def strIntercalate (sep : String) : List String → String
  | [] => ""
  | [x] => x
  | x :: rest => x ++ sep ++ strIntercalate sep rest

/-- Accumulator of `searchInEndpoint`: matched fields (push order),
running weighted total, highlights record. -/
structure SearchAcc where
  matchedFields : List String
  totalScore : ℚ
  highlights : List (String × String)

def addField (acc : SearchAcc) (field : String) (weighted : ℚ)
    (hlKey hlVal : String) : SearchAcc :=
  { matchedFields := acc.matchedFields ++ [field],
    totalScore := acc.totalScore + weighted,
    highlights := recSetStr acc.highlights hlKey hlVal }

/-- `searchInEndpoint(endpoint, query)`: per-field scoring in the fixed
order summary, description, operationId, path, tags, parameters,
responses, with weights 2, 1.5, 1.8, 1.7, 1.3, 1.2, 1.1; the aggregate is
`min(totalScore / matchedFields.length, 1)`; `null` when nothing
matched. -/
def searchInEndpoint (opts : SearchOptions) (endpoint : NormalizedEndpoint)
    (query : String) : Option SearchResult :=
  if query = "" ∨ query.length < opts.minQueryLength then none
  else
    let fm := fun text => fuzzyMatch opts.caseSensitive opts.fuzzySearch query text
    let acc : SearchAcc := { matchedFields := [], totalScore := 0, highlights := [] }
    let acc :=
      if opts.searchFields.contains "summary" && jsTruthyOptStr endpoint.summary then
        let sc := fm (endpoint.summary.getD "")
        if 0 < sc then addField acc "summary" (sc * 2) "summary" (endpoint.summary.getD "")
        else acc
      else acc
    let acc :=
      if opts.searchFields.contains "description" && jsTruthyOptStr endpoint.description then
        let sc := fm (endpoint.description.getD "")
        if 0 < sc then
          addField acc "description" (sc * (15 / 10)) "description" (endpoint.description.getD "")
        else acc
      else acc
    let acc :=
      if opts.searchFields.contains "operationId" && jsTruthyOptStr endpoint.operationId then
        let sc := fm (endpoint.operationId.getD "")
        if 0 < sc then
          addField acc "operationId" (sc * (18 / 10)) "operationId" (endpoint.operationId.getD "")
        else acc
      else acc
    let acc :=
      if opts.searchFields.contains "path" then
        let sc := fm endpoint.path
        if 0 < sc then addField acc "path" (sc * (17 / 10)) "path" endpoint.path
        else acc
      else acc
    let acc :=
      if opts.searchFields.contains "tags" then
        match endpoint.tags with
        | some tagsL =>
          match tagsL.find? (fun t => decide (0 < fm t)) with
          | some t => addField acc "tags" (fm t * (13 / 10)) "tags" (strIntercalate ", " tagsL)
          | none => acc
        | none => acc
      else acc
    let pDescScore := fun (p : NormalizedParameter) =>
      if jsTruthyOptStr p.description then fm (p.description.getD "") else 0
    let acc :=
      if opts.searchFields.contains "parameters" then
        match endpoint.parameters.find?
            (fun p => decide (0 < fm p.name) || decide (0 < pDescScore p)) with
        | some p =>
          addField acc "parameters" ((fm p.name + pDescScore p) * (12 / 10))
            "parameters" ("Parameter: " ++ p.name)
        | none => acc
      else acc
    let rScore := fun (r : NormalizedResponse) =>
      if !(r.description = "") then fm r.description else 0
    let acc :=
      if opts.searchFields.contains "responses" then
        match endpoint.responses.find? (fun r => decide (0 < rScore r)) with
        | some r =>
          addField acc "responses" (rScore r * (11 / 10))
            "responses" (r.statusCode ++ ": " ++ r.description)
        | none => acc
      else acc
    if acc.matchedFields = [] then none
    else some { endpoint := endpoint,
                score := min (acc.totalScore / (acc.matchedFields.length : ℚ)) 1,
                matchedFields := acc.matchedFields,
                highlights := acc.highlights }

/-- The six non-text filters of `filteredResults`, applied conjunctively
in source order. -/
def applyFiltersNoQuery (filters : SearchFilters)
    (endpoints : List NormalizedEndpoint) : List NormalizedEndpoint :=
  let r1 := match filters.methods with
    | some ms => if 0 < ms.length then endpoints.filter (fun e => ms.contains e.method)
                 else endpoints
    | none => endpoints
  let r2 := match filters.tags with
    | some ts =>
      if 0 < ts.length then
        r1.filter (fun e => match e.tags with
          | some etags => etags.any (fun t => ts.contains t)
          | none => false)
      else r1
    | none => r1
  let r3 := match filters.deprecated with
    | some d => r2.filter (fun e => e.deprecated == d)
    | none => r2
  let r4 := match filters.hasParameters with
    | some b =>
      if b then r3.filter (fun e => decide (0 < e.parameters.length))
      else r3.filter (fun e => decide (e.parameters.length = 0))
    | none => r3
  let r5 := match filters.hasRequestBody with
    | some b =>
      if b then r4.filter (fun e => e.requestBody.isSome)
      else r4.filter (fun e => e.requestBody.isNone)
    | none => r4
  let r6 := match filters.responseStatusCodes with
    | some codes =>
      if 0 < codes.length then
        r5.filter (fun e => e.responses.any (fun r => codes.contains r.statusCode))
      else r5
    | none => r5
  r6

/-- `filters.query && filters.query.length >= minQueryLength`. -/
def queryActive (filters : SearchFilters) (opts : SearchOptions) : Bool :=
  match filters.query with
  | some q => !(q = "") && decide (opts.minQueryLength ≤ q.length)
  | none => false

/-- The text-search result list before sorting: map `searchInEndpoint`
over the filter-passing endpoints and drop the `null`s (order
preserved from the input endpoint list). -/
def preResults (opts : SearchOptions) (filters : SearchFilters)
    (endpoints : List NormalizedEndpoint) : List SearchResult :=
  ((applyFiltersNoQuery filters endpoints).map
    (fun e => searchInEndpoint opts e (filters.query.getD ""))).reduceOption

/-- The order produced by the comparator `(a, b) => b.score - a.score`:
descending scores. -/
def scoreGe (a b : SearchResult) : Prop := b.score ≤ a.score

instance : DecidableRel scoreGe :=
  fun a b => inferInstanceAs (Decidable (b.score ≤ a.score))

instance : IsTotal SearchResult scoreGe := ⟨fun a b => le_total b.score a.score⟩

instance : IsTrans SearchResult scoreGe := ⟨fun _ _ _ hab hbc => le_trans hbc hab⟩

/-- `filteredResults`: with an active text query, score the filtered
endpoints and sort by `.sort((a, b) => b.score - a.score)`.  ECMAScript
requires `Array.prototype.sort` to be stable, and the stable descending
sort is exactly insertion sort by `scoreGe`.  Without an active query,
every filter-passing endpoint is returned with score 1 and empty matched
fields. -/
def filteredResults (opts : SearchOptions) (filters : SearchFilters)
    (endpoints : List NormalizedEndpoint) : List SearchResult :=
  if queryActive filters opts then
    List.insertionSort scoreGe (preResults opts filters endpoints)
  else
    (applyFiltersNoQuery filters endpoints).map
      (fun e => { endpoint := e, score := 1, matchedFields := [], highlights := [] })

theorem insertionSort_filter_score (l : List SearchResult) (s : ℚ) :
    (List.insertionSort scoreGe l).filter (fun r => decide (r.score = s)) =
      l.filter (fun r => decide (r.score = s)) := by
  set p : SearchResult → Bool := fun r => decide (r.score = s) with hp
  have hpw : (l.filter p).Pairwise scoreGe := by
    refine List.pairwise_of_forall_mem_list ?_
    intro a ha b hb
    have ha2 := (List.mem_filter.mp ha).2
    have hb2 := (List.mem_filter.mp hb).2
    simp only [hp, decide_eq_true_eq] at ha2 hb2
    unfold scoreGe
    rw [ha2, hb2]
  have h1 : List.Sublist (l.filter p) (List.insertionSort scoreGe l) :=
    List.sublist_insertionSort hpw (List.filter_sublist l)
  have h2 : List.Perm ((List.insertionSort scoreGe l).filter p) (l.filter p) :=
    (List.perm_insertionSort scoreGe l).filter p
  have hff : (l.filter p).filter p = l.filter p := by
    simp [List.filter_filter]
  have h4 : List.Sublist (l.filter p) ((List.insertionSort scoreGe l).filter p) := by
    have h5 := h1.filter p
    rwa [hff] at h5
  exact (h4.eq_of_length h2.length_eq.symm).symm

/-- Claim C6: with an active text query, the search result list is sorted
in descending score order, and for every score value the results carrying
that score appear in exactly the order of the unsorted scored list
`preResults` — which is itself an order-preserving map/filter of the input
endpoint list — i.e. equal scores retain relative input order (the
ECMAScript-mandated stability of `Array.prototype.sort`). -/
theorem c6_theorem (opts : SearchOptions) (filters : SearchFilters)
    (endpoints : List NormalizedEndpoint)
    (hq : queryActive filters opts = true) :
    List.Sorted scoreGe (filteredResults opts filters endpoints) ∧
    ∀ s : ℚ, (filteredResults opts filters endpoints).filter (fun r => decide (r.score = s)) =
      (preResults opts filters endpoints).filter (fun r => decide (r.score = s)) := by
  unfold filteredResults
  simp only [hq, if_true]
  exact ⟨List.sorted_insertionSort scoreGe _,
    fun s => insertionSort_filter_score (preResults opts filters endpoints) s⟩

def c6Opts : SearchOptions :=
  { searchFields := ["summary", "description", "operationId", "path", "tags",
      "parameters", "responses"],
    caseSensitive := false, fuzzySearch := false, minQueryLength := 1 }

def c6Filters : SearchFilters :=
  { query := some "user", methods := none, tags := none, deprecated := none,
    hasParameters := none, hasRequestBody := none, responseStatusCodes := none }

def c6Endpoints : List NormalizedEndpoint :=
  (extractEndpoints 32 c1SampleSpec).toOption.getD []

theorem c6_witness :
    queryActive c6Filters c6Opts = true ∧
    (List.Sorted scoreGe (filteredResults c6Opts c6Filters c6Endpoints) ∧
      ∀ s : ℚ, (filteredResults c6Opts c6Filters c6Endpoints).filter
          (fun r => decide (r.score = s)) =
        (preResults c6Opts c6Filters c6Endpoints).filter (fun r => decide (r.score = s))) := by
  exact ⟨rfl, c6_theorem c6Opts c6Filters c6Endpoints rfl⟩

/-! ### URL building: path template substitution

Both the request execution engine (`useExecuteOperation`'s `buildUrl`) and
the code snippet generator (`useCodeSnippet`'s `buildUrl`) substitute path
parameters with `path.replace(`\x7b${key}\x7d`, value)` — a string-pattern
`String.prototype.replace`, which replaces only the first occurrence.
The execution engine additionally encodes the value with
`encodeURIComponent` (a platform primitive, taken as a parameter); the
snippet generator inserts `String(value)` as is.  The subsequent WHATWG
`new URL(path, baseUrl)` construction and query-string serialization are
platform primitives, abstracted in `JsPlatform`. -/

/-- JS `s.replace(pat, rep)` at `String` level. -/
def jsReplaceFirst (s pat rep : String) : String :=
  String.mk (replaceFirstL pat.data rep.data s.data)

/-- The template placeholder `\x7bkey\x7d` for a path parameter. -/
def phKey (k : String) : String := "\x7b" ++ k ++ "\x7d"

/-- Path-parameter substitution loop of the snippet generator's
`buildUrl`. -/
def buildPathSnippet (pathParams : List (String × String)) (path : String) : String :=
  pathParams.foldl (fun p kv => jsReplaceFirst p (phKey kv.1) kv.2) path

/-- Path-parameter substitution loop of the execution engine's `buildUrl`
(`encodeURIComponent` abstracted as `encode`). -/
def buildPathExecute (encode : String → String)
    (pathParams : List (String × String)) (path : String) : String :=
  pathParams.foldl (fun p kv => jsReplaceFirst p (phKey kv.1) (encode kv.2)) path

theorem strEqOfData {a b : String} (h : a.data = b.data) : a = b := by
  cases a
  cases b
  exact congrArg String.mk h

theorem replaceFirstL_at_first (pat rep : List Char) :
    ∀ (a rest : List Char), pat ≠ [] →
      (∀ i < a.length, listStartsWith ((a ++ pat ++ rest).drop i) pat = false) →
      replaceFirstL pat rep (a ++ pat ++ rest) = a ++ rep ++ rest := by
  intro a
  induction a with
  | nil =>
    intro rest hpat _
    cases pat with
    | nil => exact absurd rfl hpat
    | cons pc ps =>
      simp only [List.nil_append, List.cons_append]
      unfold replaceFirstL
      rw [show listStartsWith (pc :: (ps ++ rest)) (pc :: ps) = true from by
        have := listStartsWith_append_self (pc :: ps) rest
        simpa using this]
      simp only [if_true]
      congr 1
      rw [show (pc :: (ps ++ rest)) = (pc :: ps) ++ rest from by simp]
      exact List.drop_left (pc :: ps) rest
  | cons c as ih =>
    intro rest hpat hfirst
    have h0 : listStartsWith ((c :: as) ++ pat ++ rest) pat = false := by
      have := hfirst 0 (by simp)
      simpa using this
    simp only [List.cons_append] at h0 ⊢
    unfold replaceFirstL
    rw [h0]
    simp only [Bool.false_eq_true, if_false]
    congr 1
    refine ih rest hpat ?_
    intro i hi
    have := hfirst (i + 1) (by simpa using Nat.succ_lt_succ hi)
    simpa using this

theorem phKey_ne_nil (k : String) : (phKey k).data ≠ [] := by
  simp [phKey, strData_append]

theorem strContains_of_suffix_contains (x b pat : String)
    (h : strContainsB b pat = true) : strContainsB (x ++ b) pat = true := by
  rw [← strContains_iff_strContainsB] at h ⊢
  obtain ⟨u, w, hw⟩ := h
  exact ⟨x.data ++ u, w, by simp [strData_append, hw, List.append_assoc]⟩

/-- Claim C10: in both URL builders, a supplied path parameter replaces
only the *first* occurrence of its `\x7bname\x7d` placeholder: on a template
`a ++ \x7bk\x7d ++ b` whose first placeholder occurrence starts at `a`, the
built path is exactly `a ++ value ++ b` — the tail `b`, including any
further occurrence of the placeholder, is passed through verbatim, so
occurrences after the first remain literal.  (`encode` ranges over all
implementations of `encodeURIComponent`; the subsequent WHATWG URL
construction is outside the repository.) -/
theorem c10_theorem (encode : String → String) (k v : String) (a b : String)
    (hfirst : ∀ i < a.data.length,
      listStartsWith (((a ++ phKey k ++ b).data).drop i) (phKey k).data = false) :
    buildPathExecute encode [(k, v)] (a ++ phKey k ++ b) = a ++ encode v ++ b ∧
    buildPathSnippet [(k, v)] (a ++ phKey k ++ b) = a ++ v ++ b ∧
    (strContainsB b (phKey k) = true →
      strContainsB (buildPathExecute encode [(k, v)] (a ++ phKey k ++ b)) (phKey k) = true ∧
      strContainsB (buildPathSnippet [(k, v)] (a ++ phKey k ++ b)) (phKey k) = true) := by
  have hdata : (a ++ phKey k ++ b).data = a.data ++ (phKey k).data ++ b.data := by
    simp [strData_append]
  have hsub : ∀ rep : String,
      jsReplaceFirst (a ++ phKey k ++ b) (phKey k) rep = a ++ rep ++ b := by
    intro rep
    refine strEqOfData ?_
    show (jsReplaceFirst (a ++ phKey k ++ b) (phKey k) rep).data = _
    rw [show (jsReplaceFirst (a ++ phKey k ++ b) (phKey k) rep).data =
      replaceFirstL (phKey k).data rep.data ((a ++ phKey k ++ b).data) from rfl]
    rw [hdata]
    rw [replaceFirstL_at_first (phKey k).data rep.data a.data b.data (phKey_ne_nil k)
      (by intro i hi; have := hfirst i hi; rwa [hdata] at this)]
    simp [strData_append]
  have he : buildPathExecute encode [(k, v)] (a ++ phKey k ++ b) = a ++ encode v ++ b := by
    show jsReplaceFirst (a ++ phKey k ++ b) (phKey k) (encode v) = a ++ encode v ++ b
    exact hsub (encode v)
  have hs : buildPathSnippet [(k, v)] (a ++ phKey k ++ b) = a ++ v ++ b := by
    show jsReplaceFirst (a ++ phKey k ++ b) (phKey k) v = a ++ v ++ b
    exact hsub v
  refine ⟨he, hs, ?_⟩
  intro hb
  constructor
  · rw [he]
    exact strContains_of_suffix_contains (a ++ encode v) b (phKey k) hb
  · rw [hs]
    exact strContains_of_suffix_contains (a ++ v) b (phKey k) hb

theorem c10_witness :
    (∀ i < ("/users/" : String).data.length,
      listStartsWith ((("/users/" ++ phKey "id" ++ "/refs/\x7bid\x7d").data).drop i)
        (phKey "id").data = false) ∧
    strContainsB "/refs/\x7bid\x7d" (phKey "id") = true ∧
    (buildPathExecute (fun s => s) [("id", "123")]
        ("/users/" ++ phKey "id" ++ "/refs/\x7bid\x7d") =
      "/users/" ++ "123" ++ "/refs/\x7bid\x7d" ∧
      buildPathSnippet [("id", "123")] ("/users/" ++ phKey "id" ++ "/refs/\x7bid\x7d") =
        "/users/" ++ "123" ++ "/refs/\x7bid\x7d" ∧
      (strContainsB "/refs/\x7bid\x7d" (phKey "id") = true →
        strContainsB (buildPathExecute (fun s => s) [("id", "123")]
          ("/users/" ++ phKey "id" ++ "/refs/\x7bid\x7d")) (phKey "id") = true ∧
        strContainsB (buildPathSnippet [("id", "123")]
          ("/users/" ++ phKey "id" ++ "/refs/\x7bid\x7d")) (phKey "id") = true)) := by
    refine ⟨by decide, by decide, c10_theorem (fun s => s) "id" "123" "/users/"
      "/refs/\x7bid\x7d" (by decide)⟩

/-! ### Code snippet generator (`useCodeSnippet`): the curl generator

`buildUrl`, `generateAuthHeaders` and `generateCurl` from
`useCodeSnippet.ts`.  WHATWG URL construction (`new URL` + `searchParams` +
`toString`), `JSON.stringify(body, null, 2)` and `btoa` are platform
primitives bundled in `JsPlatform`. -/

structure JsPlatform where
  urlResolve : String → String → List (String × String) → String
  stringifyPretty : Json → String
  btoa : String → String

structure CodeSnippetApiKey where
  name : String
  value : String
  keyIn : String

structure CodeSnippetAuth where
  type : String
  apiKey : Option CodeSnippetApiKey
  bearer : Option String
  basic : Option (String × String)
  oauth2 : Option String

structure CodeSnippetParameters where
  pathParams : List (String × String)
  queryParams : List (String × String)
  headers : List (String × String)
  body : Option Json

structure CodeSnippetOptions where
  language : String
  includeAuth : Bool
  auth : Option CodeSnippetAuth
  parameters : Option CodeSnippetParameters
  serverUrl : Option String

/-- `getBaseUrl(serverUrl)`: explicit override when truthy, else the first
spec server, else the fixed fallback. -/
def getBaseUrl (servers : List String) (serverUrl : Option String) : String :=
  if jsTruthyOptStr serverUrl then serverUrl.getD ""
  else match servers with
    | u :: _ => u
    | [] => "https://api.example.com"

/-- The snippet generator's `buildUrl`: substitute path params, then build
the final URL (platform). -/
def buildUrl (P : JsPlatform) (servers : List String)
    (endpoint : NormalizedEndpoint) (options : CodeSnippetOptions) : String :=
  let baseUrl := getBaseUrl servers options.serverUrl
  let path := match options.parameters with
    | some ps => buildPathSnippet ps.pathParams endpoint.path
    | none => endpoint.path
  P.urlResolve path baseUrl
    (match options.parameters with | some ps => ps.queryParams | none => [])

/-- `generateAuthHeaders(auth)`: a fresh header record per the auth type;
each branch requires its credentials to be present and truthy. -/
def generateAuthHeaders (P : JsPlatform) (auth : Option CodeSnippetAuth) :
    List (String × String) :=
  match auth with
  | none => []
  | some a =>
    if a.type = "apiKey" then
      match a.apiKey with
      | some ak => if ak.keyIn = "header" then recSetStr [] ak.name ak.value else []
      | none => []
    else if a.type = "bearer" then
      match a.bearer with
      | some tok => if tok = "" then [] else recSetStr [] "Authorization" ("Bearer " ++ tok)
      | none => []
    else if a.type = "basic" then
      match a.basic with
      | some up =>
        if up.1 = "" ∨ up.2 = "" then []
        else recSetStr [] "Authorization" ("Basic " ++ P.btoa (up.1 ++ ":" ++ up.2))
      | none => []
    else if a.type = "oauth2" then
      match a.oauth2 with
      | some tok => if tok = "" then [] else recSetStr [] "Authorization" ("Bearer " ++ tok)
      | none => []
    else []

/-- JS object spread `\x7b ...base, ...updates \x7d` on string records. -/
def mergeRecords (base updates : List (String × String)) : List (String × String) :=
  updates.foldl (fun acc kv => recSetStr acc kv.1 kv.2) base

/-- One `-H` line of the generated curl command:
`` ` \\\n  -H "${key}: ${value}"` ``. -/
def curlHeaderPart (h : String × String) : String :=
  " \\\n  -H \"" ++ h.1 ++ ": " ++ h.2 ++ "\""

def strJoinAll (l : List String) : String := l.foldl (fun acc s => acc ++ s) ""

/-- `generateCurl(endpoint, options)`. -/
def generateCurl (P : JsPlatform) (servers : List String)
    (endpoint : NormalizedEndpoint) (options : CodeSnippetOptions) : String :=
  let url := buildUrl P servers endpoint options
  let method := strToUpper endpoint.method
  let authHeaders := if options.includeAuth then generateAuthHeaders P options.auth else []
  let customHeaders := match options.parameters with | some ps => ps.headers | none => []
  let allHeaders := mergeRecords authHeaders customHeaders
  let curl1 := "curl -X " ++ method
  let curl2 := curl1 ++ strJoinAll (allHeaders.map curlHeaderPart)
  let bodyTruthy := match options.parameters with
    | some ps => (match ps.body with | some b => jsTruthy b | none => false)
    | none => false
  let hasBody := bodyTruthy && (method = "POST" ∨ method = "PUT" ∨ method = "PATCH" : Bool)
  let curl3 :=
    if hasBody then
      let bodyStr := match options.parameters with
        | some ps =>
          (match ps.body with
           | some (.str s) => s
           | some b => P.stringifyPretty b
           | none => "")
        | none => ""
      curl2 ++ " \\\n  -H \"Content-Type: application/json\"" ++
        (" \\\n  -d \x27" ++ bodyStr ++ "\x27")
    else curl2
  let apiKeyQueryTail :=
    if options.includeAuth then
      match options.auth with
      | some a =>
        if a.type = "apiKey" then
          match a.apiKey with
          | some ak =>
            if ak.keyIn = "query" then
              let sep := if strContainsB url "?" then "&" else "?"
              " \\\n  \"" ++ url ++ sep ++ ak.name ++ "=" ++ ak.value ++ "\""
            else " \\\n  \"" ++ url ++ "\""
          | none => " \\\n  \"" ++ url ++ "\""
        else " \\\n  \"" ++ url ++ "\""
      | none => " \\\n  \"" ++ url ++ "\""
    else " \\\n  \"" ++ url ++ "\""
  curl3 ++ apiKeyQueryTail

theorem strAppend_assoc (a b c : String) : (a ++ b) ++ c = a ++ (b ++ c) :=
  strEqOfData (by simp [strData_append, List.append_assoc])

theorem strEmpty_append (a : String) : "" ++ a = a :=
  strEqOfData (by simp [strData_append])

theorem strFoldl_shift : ∀ (xs : List String) (a : String),
    xs.foldl (fun acc s => acc ++ s) a = a ++ xs.foldl (fun acc s => acc ++ s) "" := by
  intro xs
  induction xs with
  | nil =>
    intro a
    exact (strEqOfData (by simp [strData_append])).symm
  | cons x xs ih =>
    intro a
    show xs.foldl (fun acc s => acc ++ s) (a ++ x) = _
    rw [ih (a ++ x)]
    conv_rhs => rw [show (x :: xs).foldl (fun acc s => acc ++ s) "" =
      xs.foldl (fun acc s => acc ++ s) ("" ++ x) from rfl]
    rw [ih ("" ++ x), strEmpty_append, strAppend_assoc]

theorem strJoinAll_cons (x : String) (xs : List String) :
    strJoinAll (x :: xs) = x ++ strJoinAll xs := by
  show (x :: xs).foldl (fun acc s => acc ++ s) "" = _
  rw [show (x :: xs).foldl (fun acc s => acc ++ s) "" =
    xs.foldl (fun acc s => acc ++ s) ("" ++ x) from rfl, strEmpty_append, strFoldl_shift]
  rfl

theorem strContains_append_right (s u t : String) (h : strContains s t) :
    strContains (s ++ u) t := by
  obtain ⟨x, y, hxy⟩ := h
  exact ⟨x, y ++ u.data, by simp [strData_append, hxy, List.append_assoc]⟩

theorem recSetStr_keep_head (k0 v0 k v : String) (t : List (String × String))
    (hk : k ≠ k0) :
    ∃ t2, recSetStr ((k0, v0) :: t) k v = (k0, v0) :: t2 := by
  unfold recSetStr
  by_cases hc : ((((k0, v0) :: t).map Prod.fst).contains k) = true
  · rw [if_pos hc]
    refine ⟨t.map (fun kv2 => if kv2.1 = k then (k, v) else kv2), ?_⟩
    simp only [List.map_cons]
    rw [if_neg (by simpa using (Ne.symm hk))]
  · rw [if_neg hc]
    exact ⟨t ++ [(k, v)], rfl⟩

theorem mergeRecords_head (k0 v0 : String) :
    ∀ (updates : List (String × String)), (∀ kv ∈ updates, kv.1 ≠ k0) →
      ∀ t, ∃ rest, mergeRecords ((k0, v0) :: t) updates = (k0, v0) :: rest := by
  intro updates
  induction updates with
  | nil => intro _ t; exact ⟨t, rfl⟩
  | cons kv rest ih =>
    intro h t
    obtain ⟨t2, ht2⟩ := recSetStr_keep_head k0 v0 kv.1 kv.2 t
      (h kv (List.mem_cons_self _ _))
    have hstep : mergeRecords ((k0, v0) :: t) (kv :: rest) =
        mergeRecords (recSetStr ((k0, v0) :: t) kv.1 kv.2) rest := rfl
    rw [hstep, ht2]
    exact ih (fun kv2 hm => h kv2 (List.mem_cons_of_mem _ hm)) t2

theorem curlHeaderPart_auth (tok : String) :
    curlHeaderPart ("Authorization", "Bearer " ++ tok) =
      " \\\n  " ++ ("-H \"Authorization: Bearer " ++ tok ++ "\"") := by
  have hkey : ∀ X : List Char,
      (" \\\n  -H \"").data ++ ("Authorization".data ++ (": ".data ++ ("Bearer ".data ++ X))) =
        (" \\\n  ").data ++ (("-H \"Authorization: Bearer ").data ++ X) := by
    intro X
    have h1 : (((" \\\n  -H \"").data ++ "Authorization".data) ++ ": ".data) ++ "Bearer ".data =
        (" \\\n  ").data ++ ("-H \"Authorization: Bearer ").data := by decide
    calc (" \\\n  -H \"").data ++ ("Authorization".data ++ (": ".data ++ ("Bearer ".data ++ X)))
        = ((((" \\\n  -H \"").data ++ "Authorization".data) ++ ": ".data) ++ "Bearer ".data) ++ X := by
          simp [List.append_assoc]
      _ = ((" \\\n  ").data ++ ("-H \"Authorization: Bearer ").data) ++ X := by rw [h1]
      _ = (" \\\n  ").data ++ (("-H \"Authorization: Bearer ").data ++ X) := by
          simp [List.append_assoc]
  refine strEqOfData ?_
  show (" \\\n  -H \"" ++ "Authorization" ++ ": " ++ ("Bearer " ++ tok) ++ "\"").data = _
  simp only [strData_append, List.append_assoc]
  exact hkey (tok.data ++ "\"".data)

/-- Claim C8 (amended): for every endpoint and curl-generator options with
`includeAuth` enabled, bearer auth configured with a non-empty token, and
no custom header overriding `Authorization`, the generated curl string
contains the literal substring `-H "Authorization: Bearer <token>"`.
(The endpoint's method is arbitrary; the claim's GET scenario is an
instance.) -/
theorem c8_theorem (P : JsPlatform) (servers : List String)
    (endpoint : NormalizedEndpoint) (options : CodeSnippetOptions)
    (auth : CodeSnippetAuth) (tok : String)
    (hInc : options.includeAuth = true)
    (hAuth : options.auth = some auth)
    (hType : auth.type = "bearer")
    (hTok : auth.bearer = some tok)
    (hTokNe : tok ≠ "")
    (hNoCustom : ∀ kv ∈ (match options.parameters with
        | some ps => ps.headers
        | none => ([] : List (String × String))), kv.1 ≠ "Authorization") :
    strContains (generateCurl P servers endpoint options)
      ("-H \"Authorization: Bearer " ++ tok ++ "\"") := by
  have hah : generateAuthHeaders P (some auth) = [("Authorization", "Bearer " ++ tok)] := by
    unfold generateAuthHeaders
    simp only [hType, hTok]
    simp [hTokNe, recSetStr]
  obtain ⟨rest, hmerge⟩ := mergeRecords_head "Authorization" ("Bearer " ++ tok)
    (match options.parameters with
      | some ps => ps.headers
      | none => ([] : List (String × String))) hNoCustom []
  have hcurl2 : strContains (("curl -X " ++ strToUpper endpoint.method) ++
      strJoinAll (((("Authorization", "Bearer " ++ tok) : String × String) :: rest).map
        curlHeaderPart))
      ("-H \"Authorization: Bearer " ++ tok ++ "\"") := by
    rw [List.map_cons, strJoinAll_cons, curlHeaderPart_auth]
    refine ⟨("curl -X " ++ strToUpper endpoint.method ++ " \\\n  ").data,
      (strJoinAll (rest.map curlHeaderPart)).data, ?_⟩
    simp [strData_append, List.append_assoc]
  unfold generateCurl
  rw [hInc, hAuth, hah]
  simp only [if_true]
  rw [hmerge]
  rw [hType]
  simp only [show ("bearer" = "apiKey") = False from by simp]
  simp only [if_false]
  split
  · exact strContains_append_right _ _ _
      (strContains_append_right _ _ _ (strContains_append_right _ _ _ hcurl2))
  · exact strContains_append_right _ _ _ hcurl2

def c8Platform : JsPlatform :=
  { urlResolve := fun path base _ => base ++ path,
    stringifyPretty := fun _ => "",
    btoa := fun s => s }

def c8Endpoint : NormalizedEndpoint :=
  { id := "ping", method := "get", path := "/ping", summary := none,
    description := none, operationId := some "ping", tags := none,
    parameters := [], requestBody := none, responses := [],
    deprecated := false, security := none }

def c8BearerAuth : CodeSnippetAuth :=
  { type := "bearer", apiKey := none, bearer := some "tok123",
    basic := none, oauth2 := none }

def c8OptionsNoInclude : CodeSnippetOptions :=
  { language := "curl", includeAuth := false, auth := some c8BearerAuth,
    parameters := none, serverUrl := some "https://api.example.com" }

/-- Claim C8 counterexample: a GET endpoint with curl options carrying a
configured bearer token (`auth.type = "bearer"`, token `"tok123"`) but
without `includeAuth` generates a curl string that does *not* contain
`-H "Authorization: Bearer tok123"` — bearer configuration alone does not
produce the header. -/
theorem c8_counterexample :
    c8OptionsNoInclude.language = "curl" ∧
    c8Endpoint.method = "get" ∧
    c8OptionsNoInclude.auth = some c8BearerAuth ∧
    c8BearerAuth.type = "bearer" ∧
    c8BearerAuth.bearer = some "tok123" ∧
    ¬ strContains (generateCurl c8Platform [] c8Endpoint c8OptionsNoInclude)
        ("-H \"Authorization: Bearer " ++ "tok123" ++ "\"") := by
  refine ⟨rfl, rfl, rfl, rfl, rfl, ?_⟩
  rw [strContains_iff_strContainsB]
  decide

def c8OptionsInclude : CodeSnippetOptions :=
  { language := "curl", includeAuth := true, auth := some c8BearerAuth,
    parameters := none, serverUrl := some "https://api.example.com" }

theorem c8_witness :
    c8OptionsInclude.includeAuth = true ∧
    c8OptionsInclude.auth = some c8BearerAuth ∧
    ("tok123" : String) ≠ "" ∧
    strContains (generateCurl c8Platform [] c8Endpoint c8OptionsInclude)
      ("-H \"Authorization: Bearer " ++ "tok123" ++ "\"") := by
  refine ⟨rfl, rfl, by decide, ?_⟩
  exact c8_theorem c8Platform [] c8Endpoint c8OptionsInclude c8BearerAuth "tok123"
    rfl rfl rfl rfl (by decide) (by intro kv hkv; simp [c8OptionsInclude] at hkv)
